import Mathlib

/-!
Shallow embedding of the `fcm-receiver-rs` crate (sources `src/lib.rs`,
`src/mcs.rs`, `src/gcm.rs`, `src/fcm.rs`, `src/credentials.rs`) and proofs
about its specification claims.

Modelling conventions:
* Machine bytes are `Nat` values; byte streams are `List Nat`.  The `u32`
  accumulator of the VLQ reader never exceeds 28 bits (shifts are 0, 7, 14,
  21 and each summand is below 128), so plain `Nat` arithmetic coincides
  with the Rust `u32` arithmetic there; the one place a width cast occurs
  (`ciphertext.len() as u32`) is modelled with an explicit `% 2 ^ 32`.
* Rust `String` values are Lean `String`s; Rust byte slicing of strings
  (`&s[i..]`), which panics when `i` is out of bounds or not on a UTF-8
  character boundary, is modelled by the partial function `byteSlice`
  returning `none` exactly in the panicking cases.
* External crates (`base64`, `ece`, prost-generated body decoders, the
  TLS/TCP transport and the HTTP check-in) are modelled as parameters:
  abstract functions bundled in `CryptoApi` and `BodyDecoders`, and for the
  transport a list of read results / connection outcomes.  The
  prost-generated message structs (`mcs.proto` is not part of the sources)
  are modelled from their uses in `src/lib.rs` and `src/mcs.rs`.
* The `async_stream::stream!` block of `Client::notifications` uses `?` on
  the decrypt result; the macro expands this to yielding
  `Err(error.into())` as a stream item followed by `return`, which ends the
  stream permanently.  The stream body is modelled as a state-passing
  function over the list of `read_message` results of each connection.
-/

namespace FcmReceiver

/-! ### Error types (`src/mcs.rs`, `src/lib.rs`) -/

/-- Model of `prost::DecodeError` (opaque external error). -/
structure ProstDecodeError where
  message : String
deriving DecidableEq

/-- Model of `base64::DecodeError` (opaque external error). -/
structure Base64DecodeError where
  message : String
deriving DecidableEq

/-- Model of `ece::Error` (opaque external error). -/
structure EceError where
  message : String
deriving DecidableEq

/-- Tag type of MCS frames: `pub type Tag = i8` in `src/mcs.rs`. -/
abbrev Tag := Int

/-- Errors returned by `Message::decode()` (`src/mcs.rs`). -/
inductive DecodeError where
  | prostDecode (e : ProstDecodeError)
  | unknownTag (tag : Tag)
deriving DecidableEq

/-- Error type returned by `DataMessageStanza::app_data()` (`src/mcs.rs`). -/
structure MissingDataError where
  key : String
deriving DecidableEq

/-- Errors of the `AsyncReadExt` read helpers (`src/mcs.rs`). -/
inductive ReadError where
  | tokioIo
  | protoDecode (e : DecodeError)
  | vlqTooLarge
deriving DecidableEq

/-- Error enum `DecryptError` of `src/lib.rs`. -/
inductive DecryptError where
  | missingData (e : MissingDataError)
  | ece (e : EceError)
  | base64Decode (e : Base64DecodeError)
deriving DecidableEq

/-- Error enum `LoginRequestError` of `src/lib.rs`. -/
inductive LoginRequestError where
  | invalidAndroidId (android_id : String)
deriving DecidableEq

/-- Error enum `ClientError` of `src/lib.rs`.  Variants whose payloads come
from external crates carry opaque string models. -/
inductive ClientError where
  | decrypt (e : DecryptError)
  | login (e : LoginRequestError)
  | gcmCheckIn (e : String)
  | gcmRegister (e : String)
  | fcmRegister (e : String)
  | base64Decode (e : Base64DecodeError)
  | network (e : String)
  | tls (e : String)
deriving DecidableEq

/-! ### Protocol message model (prost-generated structs, from their uses) -/

/-- An `AppData` key/value pair attached to a `DataMessageStanza`. -/
structure AppData where
  key : String
  value : String
deriving DecidableEq

/-- The `DataMessageStanza` protobuf message; `persistent_id` and `raw_data`
stand for the results of the prost accessors `persistent_id()` and
`raw_data()` (which substitute the field default when absent). -/
structure DataMessageStanza where
  persistent_id : String
  raw_data : List Nat
  app_data : List AppData
deriving DecidableEq

/-- The `Setting` protobuf message used inside a login request. -/
structure Setting where
  name : String
  value : String
deriving DecidableEq

/-- The `LoginRequest` protobuf message, restricted to the fields the crate
sets in `Client::login_request`; the remaining proto fields are defaulted
and never read by the sources. -/
structure LoginRequest where
  adaptive_heartbeat : Option Bool
  auth_service : Option Int
  auth_token : String
  id : String
  domain : String
  device_id : Option String
  network_type : Option Int
  resource : String
  user : String
  use_rmq2 : Option Bool
  setting : List Setting
  received_persistent_id : List String
deriving DecidableEq

/-- The `LoginResponse` protobuf message; no field is read by the crate. -/
structure LoginResponse where
  deriving DecidableEq

/-- The `HeartbeatPing` protobuf message; no field is read by the crate. -/
structure HeartbeatPing where
  deriving DecidableEq

/-- The `HeartbeatAck` protobuf message; no field is read by the crate. -/
structure HeartbeatAck where
  deriving DecidableEq

/-- The `Close` protobuf message; no field is read by the crate. -/
structure Close where
  deriving DecidableEq

/-- The `IqStanza` protobuf message; no field is read by the crate. -/
structure IqStanza where
  deriving DecidableEq

/-- The `Message` enum of `src/mcs.rs`. -/
inductive Message where
  | heartbeatPing (m : HeartbeatPing)
  | heartbeatAck (m : HeartbeatAck)
  | loginRequest (m : LoginRequest)
  | loginResponse (m : LoginResponse)
  | close (m : Close)
  | iqStanza (m : IqStanza)
  | dataMessageStanza (m : DataMessageStanza)
deriving DecidableEq

/-- Prost-generated per-message-kind body decoders (`T::decode(buf)`); they
are external generated code, hence abstract parameters of the model. -/
structure BodyDecoders where
  heartbeatPing : List Nat → Except ProstDecodeError HeartbeatPing
  heartbeatAck : List Nat → Except ProstDecodeError HeartbeatAck
  loginRequest : List Nat → Except ProstDecodeError LoginRequest
  loginResponse : List Nat → Except ProstDecodeError LoginResponse
  close : List Nat → Except ProstDecodeError Close
  iqStanza : List Nat → Except ProstDecodeError IqStanza
  dataMessageStanza : List Nat → Except ProstDecodeError DataMessageStanza

/-- Translation of `Message::decode(buf, tag)` from `src/mcs.rs`: dispatch
on the frame tag, decoding the body with the prost decoder of the selected
message kind; any other tag fails with `UnknownTag`. -/
def Message.decode (d : BodyDecoders) (buf : List Nat) (tag : Tag) :
    Except DecodeError Message :=
  match tag with
  | 0 => ((d.heartbeatPing buf).map .heartbeatPing).mapError .prostDecode
  | 1 => ((d.heartbeatAck buf).map .heartbeatAck).mapError .prostDecode
  | 2 => ((d.loginRequest buf).map .loginRequest).mapError .prostDecode
  | 3 => ((d.loginResponse buf).map .loginResponse).mapError .prostDecode
  | 4 => ((d.close buf).map .close).mapError .prostDecode
  | 7 => ((d.iqStanza buf).map .iqStanza).mapError .prostDecode
  | 8 => ((d.dataMessageStanza buf).map .dataMessageStanza).mapError .prostDecode
  | _ => .error (.unknownTag tag)

/-! ### VLQ reader (`AsyncReadExt::read_vlq_u32`, `src/mcs.rs`) -/

/-- Loop body of `read_vlq_u32`: `fuel` counts the remaining iterations of
`for _ in 0..4`; reading a byte from an exhausted stream is a
`tokio::io` error; the accumulator update and the continuation-bit test
mirror the source line by line. -/
def read_vlq_u32_go : Nat → Nat → Nat → List Nat → Except ReadError (Nat × List Nat)
  | 0, _, _, _ => .error .vlqTooLarge
  | _ + 1, _, _, [] => .error .tokioIo
  | fuel + 1, shift, value, next :: rest =>
    let value' := value ||| ((next &&& 127) <<< shift)
    if next &&& 128 == 0 then
      .ok (value', rest)
    else
      read_vlq_u32_go fuel (shift + 7) value' rest

/-- Translation of `read_vlq_u32` from `src/mcs.rs`, reading from a byte
list and returning the decoded value together with the unconsumed rest. -/
def read_vlq_u32 (input : List Nat) : Except ReadError (Nat × List Nat) :=
  read_vlq_u32_go 4 0 0 input

/-- The base-128 little-endian VLQ encoding described by the specification
(continuation bit = high bit of each byte); the round-trip partner of
`read_vlq_u32`. -/
def vlq_encode (n : Nat) : List Nat :=
  if h : n < 128 then [n]
  else (128 + n % 128) :: vlq_encode (n / 128)
termination_by n
decreasing_by exact Nat.div_lt_self (by omega) (by omega)

/-! ### `DataMessageStanza::app_data` (`src/mcs.rs`) -/

/-- Loop of `DataMessageStanza::app_data`: scan the entries, remember the
first match; a second match is only logged and stops the scan. -/
def appDataGo (key : String) (result : Option AppData) :
    List AppData → Option AppData
  | [] => result
  | data :: rest =>
    if data.key = key then
      match result with
      | some found => some found
      | none => appDataGo key (some data) rest
    else
      appDataGo key result rest

/-- Translation of `DataMessageStanza::app_data(key)`: the first entry with
the given key, or a `MissingDataError` carrying the key. -/
def DataMessageStanza.appData (msg : DataMessageStanza) (key : String) :
    Except MissingDataError AppData :=
  match appDataGo key none msg.app_data with
  | some data => .ok data
  | none => .error ⟨key⟩

/-! ### Rust string byte slicing -/

/-- Byte-index suffix slicing over the character list of a string:
`none` exactly when the index is past the end or inside a UTF-8
character. -/
def byteSliceGo : List Char → Nat → Option (List Char)
  | cs, 0 => some cs
  | [], _ + 1 => none
  | c :: cs, i + 1 =>
    if c.utf8Size ≤ i + 1 then byteSliceGo cs (i + 1 - c.utf8Size) else none

/-- Model of the Rust suffix slice `&s[i..]` on a `String` (byte index):
`none` models the panic on an out-of-bounds index or an index that is not
a character boundary. -/
def byteSlice (s : String) (i : Nat) : Option String :=
  (byteSliceGo s.data i).map fun cs => ⟨cs⟩

/-! ### Client state and decryption pipeline (`src/lib.rs`) -/

/-- Model of `ece::crypto::EcKeyComponents` (raw key bytes). -/
structure EcKeyComponents where
  private_key : List Nat
  public_key : List Nat
deriving DecidableEq

/-- Model of `ece::legacy::AesGcmEncryptedBlock` (built via
`AesGcmEncryptedBlock::new(dh, salt, rs, ciphertext)`). -/
structure AesGcmEncryptedBlock where
  dh : List Nat
  salt : List Nat
  rs : Nat
  ciphertext : List Nat
deriving DecidableEq

/-- The `GcmCredentials` struct of `src/gcm.rs`. -/
structure GcmCredentials where
  token : String
  android_id : String
  security_token : String
  app_id : String
deriving DecidableEq

/-- The `FcmCredentials` struct of `src/fcm.rs`. -/
structure FcmCredentials where
  token : String
  push_set : String
deriving DecidableEq

/-- The `Keys` struct of `src/credentials.rs` (text- or byte-valued). -/
structure Keys (T : Type) where
  private_key : T
  public_key : T
  auth_secret : T
deriving DecidableEq

/-- The `Credentials` struct of `src/credentials.rs`. -/
structure Credentials where
  keys : Keys String
  gcm : GcmCredentials
  fcm : FcmCredentials
deriving DecidableEq

/-- External cryptographic primitives used by the crate, as abstract
functions: the two base64 engines of the `base64` crate and the two `ece`
crate entry points used by `Client::decrypt`. -/
structure CryptoApi where
  b64UrlDecode : String → Except Base64DecodeError (List Nat)
  b64UrlNoPadDecode : String → Except Base64DecodeError (List Nat)
  aesGcmBlockNew : List Nat → List Nat → Nat → List Nat →
    Except EceError AesGcmEncryptedBlock
  decryptAesGcm : EcKeyComponents → List Nat → AesGcmEncryptedBlock →
    Except EceError (List Nat)

/-- The `Client` struct of `src/lib.rs`; the HTTP handle is omitted (it is
only threaded to the external check-in collaborator) and the retry
timeout ceiling is held in whole seconds, as every Rust `Duration` in the
sources is. -/
structure Client where
  persistent_ids : List String
  auth_secret : List Nat
  ec_components : EcKeyComponents
  gcm_credentials : GcmCredentials
  connect_retry_timeout_max : Nat
deriving DecidableEq

/-- Translation of `Keys::<String>::base64_decode` (`src/credentials.rs`):
decode the three text-encoded keys with the unpadded URL-safe engine. -/
def Keys.base64_decode (api : CryptoApi) (keys : Keys String) :
    Except Base64DecodeError (Keys (List Nat)) := do
  let private_key ← api.b64UrlNoPadDecode keys.private_key
  let public_key ← api.b64UrlNoPadDecode keys.public_key
  let auth_secret ← api.b64UrlNoPadDecode keys.auth_secret
  pure ⟨private_key, public_key, auth_secret⟩

/-- Translation of `Client::new` (`src/lib.rs`): decode the key material,
build the EC components, start with no persistent ids and an 80 second
retry-timeout ceiling. -/
def Client.new (api : CryptoApi) (credentials : Credentials) :
    Except ClientError Client :=
  match credentials.keys.base64_decode api with
  | .error e => .error (.base64Decode e)
  | .ok keys =>
    .ok { persistent_ids := []
          auth_secret := keys.auth_secret
          ec_components := ⟨keys.private_key, keys.public_key⟩
          gcm_credentials := credentials.gcm
          connect_retry_timeout_max := 80 }

/-- Outcome of `Client::decrypt`, with the panicking string slices made
explicit. -/
inductive DecryptOutcome where
  | panicked
  | error (e : DecryptError)
  | ok (plaintext : List Nat)
deriving DecidableEq

/-- Translation of `Client::decrypt` (`src/lib.rs`), line by line: look up
the `crypo-key` entry and slice off its first 3 bytes, look up the
`encryption` entry and slice off its first 5 bytes, base64url-decode the
DH key then the salt, build the encrypted block with the ciphertext byte
length (`as u32`) as record size, and run the legacy AES-GCM
decryption. -/
def Client.decrypt (c : Client) (api : CryptoApi) (msg : DataMessageStanza) :
    DecryptOutcome :=
  match msg.appData "crypo-key" with
  | .error e => .error (.missingData e)
  | .ok entry =>
    match byteSlice entry.value 3 with
    | none => .panicked
    | some crypto_key =>
      match msg.appData "encryption" with
      | .error e => .error (.missingData e)
      | .ok entry2 =>
        match byteSlice entry2.value 5 with
        | none => .panicked
        | some salt_text =>
          match api.b64UrlDecode crypto_key with
          | .error e => .error (.base64Decode e)
          | .ok dh =>
            let ciphertext := msg.raw_data
            let rs := ciphertext.length % 2 ^ 32
            match api.b64UrlDecode salt_text with
            | .error e => .error (.base64Decode e)
            | .ok salt =>
              match api.aesGcmBlockNew dh salt rs ciphertext with
              | .error e => .error (.ece e)
              | .ok data =>
                match api.decryptAesGcm c.ec_components c.auth_secret data with
                | .error e => .error (.ece e)
                | .ok plaintext => .ok plaintext

/-! ### Login request (`Client::login_request`, `src/lib.rs`) -/

/-- Digit accumulator of the decimal parse. -/
def parseNatDigits : List Char → Nat → Option Nat
  | [], acc => some acc
  | c :: cs, acc =>
    if c.isDigit then parseNatDigits cs (acc * 10 + (c.toNat - 48)) else none

/-- Decimal digits (at least one required) to a natural number. -/
def parseNatAll : List Char → Option Nat
  | [] => none
  | cs => parseNatDigits cs 0

/-- Signed decimal parse with the `i64` range check. -/
def parseSigned (sign : Int) (cs : List Char) : Option Int :=
  match parseNatAll cs with
  | none => none
  | some n =>
    let v := sign * (n : Int)
    if -(2 ^ 63) ≤ v ∧ v < 2 ^ 63 then some v else none

/-- Model of Rust `str::parse::<i64>`: an optional sign followed by at
least one decimal digit, rejecting values outside the `i64` range. -/
def parse_i64 (s : String) : Option Int :=
  match s.data with
  | '-' :: cs => parseSigned (-1) cs
  | '+' :: cs => parseSigned 1 cs
  | cs => parseSigned 1 cs

/-- Translation of `Client::login_request` (`src/lib.rs`): parse the
android id, format the device id, and build the request; the
`std::mem::take` on `persistent_ids` is modelled by returning the updated
client alongside the request. -/
def Client.login_request (c : Client) :
    Except LoginRequestError (LoginRequest × Client) :=
  match parse_i64 c.gcm_credentials.android_id with
  | none => .error (.invalidAndroidId c.gcm_credentials.android_id)
  | some android_id =>
    let device_id :=
      "android-" ++ String.mk (Nat.toDigits 16 (android_id % 2 ^ 64).toNat)
    .ok
      ({ adaptive_heartbeat := some false
         auth_service := some 2
         auth_token := c.gcm_credentials.security_token
         id := "chrome-63.0.3234.0"
         domain := "mcs.android.com"
         device_id := some device_id
         network_type := some 1
         resource := c.gcm_credentials.android_id
         user := c.gcm_credentials.android_id
         use_rmq2 := some true
         setting := [⟨"new_vc", "1"⟩]
         received_persistent_id := c.persistent_ids },
       { c with persistent_ids := [] })

/-! ### Connection retry loop (`Client::connect`, `src/lib.rs`)

The transport outcomes of the successive `try_connect` calls are abstract
inputs: a `Bool` per attempt (`true` = the attempt returned a stream).
The trace records every `time::sleep` performed and which attempt, if
any, returned; `connected = none` models the loop still running because
every supplied attempt failed — the signature of `connect` has no error
case at all. -/

/-- Trace of one `Client::connect` run: the sleeps performed (in seconds)
and the index of the successful `try_connect` attempt, if one occurred
within the supplied outcomes. -/
structure ConnectTrace where
  sleeps : List Nat
  connected : Option Nat
deriving DecidableEq

/-- Retry loop of `Client::connect`: sleep `retry_timeout`, re-try, then
double the timeout capping it at `cap` — exactly the order of the
source. -/
def connectLoop (cap : Nat) (retry_timeout : Nat) (attempt : Nat) :
    List Bool → ConnectTrace
  | [] => ⟨[], none⟩
  | outcome :: rest =>
    if outcome then
      ⟨[retry_timeout], some attempt⟩
    else
      let t := connectLoop cap (min cap (retry_timeout * 2)) (attempt + 1) rest
      ⟨retry_timeout :: t.sleeps, t.connected⟩

/-- Translation of `Client::connect`: one immediate `try_connect`, then the
retry loop starting from a 5 second timeout. -/
def Client.connect (c : Client) (outcomes : List Bool) : ConnectTrace :=
  match outcomes with
  | [] => ⟨[], none⟩
  | first :: rest =>
    if first then ⟨[], some 0⟩
    else connectLoop c.connect_retry_timeout_max 5 1 rest

/-! ### Notification stream (`Client::notifications`, `src/lib.rs`) -/

/-- An item yielded by the notification stream
(`Result<Vec<u8>, ClientError>`). -/
inductive StreamItem where
  | ok (plaintext : List Nat)
  | error (e : ClientError)
deriving DecidableEq

/-- How one pass of the inner read loop ended. -/
inductive InnerExit where
  /-- The supplied read results are exhausted; the loop is awaiting the
  next frame on the same connection. -/
  | suspended
  /-- A read error was logged and the inner loop was left, forcing the
  outer loop to reconnect. -/
  | reconnect
  /-- A decrypt error was yielded as an `Err` item and the whole stream
  body returned: the producer is finished for good. -/
  | stopped
  /-- A decrypt slice panicked. -/
  | panicked
deriving DecidableEq

/-- Translation of the inner `loop` of `Client::notifications`: dispatch
each `read_message` result, yielding decrypted payloads, deduplicating by
persistent id, clearing the ids on a login response, breaking on a read
error, and ending the stream on a decrypt error (`yield Err; return`, the
expansion of `?` inside `stream!`). -/
def innerLoop (api : CryptoApi) (c : Client) :
    List (Except ReadError Message) → List StreamItem × Client × InnerExit
  | [] => ([], c, .suspended)
  | .error _ :: _ => ([], c, .reconnect)
  | .ok m :: rest =>
    match m with
    | .dataMessageStanza msg =>
      let persistent_id := msg.persistent_id
      if persistent_id ∈ c.persistent_ids then
        innerLoop api c rest
      else
        let c' := { c with persistent_ids := c.persistent_ids ++ [persistent_id] }
        match c'.decrypt api msg with
        | .ok plaintext =>
          let step := innerLoop api c' rest
          (.ok plaintext :: step.1, step.2)
        | .error e => ([.error (.decrypt e)], c', .stopped)
        | .panicked => ([], c', .panicked)
    | .loginResponse _ => innerLoop api { c with persistent_ids := [] } rest
    | _ => innerLoop api c rest

/-- Final condition of a modelled notification-stream run. -/
inductive StreamState where
  /-- Still producing (awaiting reads or a fresh connection). -/
  | running
  /-- Stopped for good after yielding a decrypt error. -/
  | stopped
  /-- A decrypt slice panicked. -/
  | panicked
  /-- The login request cannot be built, so `connect` retries forever and
  no session ever starts. -/
  | stuckConnecting
deriving DecidableEq

/-- Translation of the outer `loop` of `Client::notifications` driven by a
list of connection sessions (each session being the `read_message` results
the transport delivers on that connection).  Entering a session goes
through `connect`, whose first `try_connect` builds the login request and
thereby `std::mem::take`s the persistent ids into it. -/
def notificationsRun (api : CryptoApi) (c : Client) :
    List (List (Except ReadError Message)) → List StreamItem × Client × StreamState
  | [] => ([], c, .running)
  | session :: sessions =>
    match c.login_request with
    | .error _ => ([], c, .stuckConnecting)
    | .ok (_, c₀) =>
      let step := innerLoop api c₀ session
      match step.2.2 with
      | .reconnect =>
        let next := notificationsRun api step.2.1 sessions
        (step.1 ++ next.1, next.2)
      | .suspended => (step.1, step.2.1, .running)
      | .stopped => (step.1, step.2.1, .stopped)
      | .panicked => (step.1, step.2.1, .panicked)

/-! ### Concrete fixtures used to evaluate the model on closed inputs -/

/-- Crypto stub whose operations all succeed; the legacy decryption always
yields the plaintext `[7]`. -/
def apiOkStub : CryptoApi :=
  ⟨fun _ => .ok [], fun _ => .ok [],
   fun dh salt rs ct => .ok ⟨dh, salt, rs, ct⟩,
   fun _ _ _ => .ok [7]⟩

/-- Crypto stub whose final AES-GCM decryption fails. -/
def apiDecryptFailStub : CryptoApi :=
  ⟨fun _ => .ok [], fun _ => .ok [],
   fun dh salt rs ct => .ok ⟨dh, salt, rs, ct⟩,
   fun _ _ _ => .error ⟨"authentication failed"⟩⟩

/-- Concrete GCM credentials with a numeric android id. -/
def gcmStub : GcmCredentials := ⟨"tok", "123", "456", "app"⟩

/-- Concrete credentials bundle. -/
def credsStub : Credentials := ⟨⟨"priv", "pub", "auth"⟩, gcmStub, ⟨"t", "p"⟩⟩

/-- Concrete client with no persistent ids. -/
def clientStub : Client := ⟨[], [1], ⟨[2], [3]⟩, gcmStub, 80⟩

/-- The concrete client holding the single persistent id `X`. -/
def clientX : Client := { clientStub with persistent_ids := ["X"] }

/-- Concrete data-message stanza with persistent id `X` and well-formed
headers (values long enough for the prefix strips). -/
def stanzaX : DataMessageStanza :=
  ⟨"X", [0], [⟨"crypo-key", "dh=AAAA"⟩, ⟨"encryption", "salt=AAAA"⟩]⟩

/-- Concrete stanza whose `crypo-key` value is shorter than the 3-byte
prefix the code slices off. -/
def shortStanza : DataMessageStanza :=
  ⟨"Y", [], [⟨"crypo-key", "ab"⟩, ⟨"encryption", "salt=AAAA"⟩]⟩

/-- Concrete stanza lacking the `encryption` header. -/
def noSaltStanza : DataMessageStanza :=
  ⟨"Z", [], [⟨"crypo-key", "dh=AAAA"⟩]⟩

/-- Concrete stanza with duplicate entries for the key `k`. -/
def dupStanza : DataMessageStanza :=
  ⟨"W", [], [⟨"k", "first"⟩, ⟨"k", "second"⟩]⟩

/-- Body decoders that succeed with default bodies. -/
def decodersStub : BodyDecoders :=
  ⟨fun _ => .ok ⟨⟩, fun _ => .ok ⟨⟩,
   fun _ => .error ⟨"unused"⟩, fun _ => .ok ⟨⟩,
   fun _ => .ok ⟨⟩, fun _ => .ok ⟨⟩, fun _ => .ok stanzaX⟩

/-- The login request `clientStub.login_request` produces. -/
def loginReqStub : LoginRequest :=
  ⟨some false, some 2, "456", "chrome-63.0.3234.0", "mcs.android.com",
   some "android-7b", some 1, "123", "123", some true, [⟨"new_vc", "1"⟩], []⟩

/-- The login request `clientX.login_request` produces (it carries the id
`X`). -/
def loginReqX : LoginRequest :=
  ⟨some false, some 2, "456", "chrome-63.0.3234.0", "mcs.android.com",
   some "android-7b", some 1, "123", "123", some true, [⟨"new_vc", "1"⟩], ["X"]⟩

/-! ### Helper lemmas -/

-- Decidable equality of `Except` results, for evaluating the model on
-- concrete inputs.
deriving instance DecidableEq for Except

/-- Disjoint bitwise or is addition: oring a value below `2 ^ s` with a
left-shift by `s` adds the shifted summand. -/
theorem lor_shiftLeft_eq_add (s : Nat) : ∀ a b : Nat, a < 2 ^ s →
    a ||| (b <<< s) = a + b * 2 ^ s := by
  induction s with
  | zero =>
    intro a b h
    interval_cases a
    simp [Nat.shiftLeft_eq]
  | succ s ih =>
    intro a b h
    have hb : b <<< (s + 1) = Nat.bit false (b <<< s) := by
      simp [Nat.bit, Nat.shiftLeft_succ]
    have ha : a = Nat.bit a.bodd a.div2 := (Nat.bit_decomp a).symm
    have hd := Nat.bit_decomp a
    have hq : a.div2 < 2 ^ s := by
      cases hab : a.bodd <;> simp [hab, Nat.bit] at hd <;>
        · rw [pow_succ] at h; omega
    rw [ha, hb, Nat.lor_bit, ih a.div2 b hq]
    rw [pow_succ]
    have hmul : b * (2 ^ s * 2) = 2 * (b * 2 ^ s) := by ring
    cases hab : a.bodd <;> simp [hab, Nat.bit] at hd ⊢ <;> omega

/-- Masking with `127` is reduction modulo `128`. -/
theorem and_127_eq_mod (n : Nat) : n &&& 127 = n % 128 := by
  have := Nat.and_pow_two_sub_one_eq_mod n 7
  norm_num at this
  exact this

/-- A byte below `128` has a clear continuation bit. -/
theorem and_128_of_lt {n : Nat} (h : n < 128) : n &&& 128 = 0 := by
  have h7 : n < 2 ^ 7 := by norm_num; omega
  have := Nat.and_two_pow n 7
  rw [Nat.testBit_lt_two_pow h7] at this
  norm_num at this
  exact this

/-- A byte of the form `128 + r` with `r < 128` has its continuation bit
set. -/
theorem and_128_of_cont {r : Nat} (h : r < 128) : (128 + r) &&& 128 = 128 := by
  have := Nat.and_two_pow (128 + r) 7
  have ht : (128 + r).testBit 7 = true := by
    rw [Nat.testBit_to_div_mod]
    norm_num
    omega
  rw [ht] at this
  norm_num at this
  exact this

/-- One step of the VLQ loop on a final group (continuation bit clear). -/
theorem vlq_go_single (fuel shift value n : Nat) (rest : List Nat)
    (hn : n < 128) (hv : value < 2 ^ shift) :
    read_vlq_u32_go (fuel + 1) shift value (n :: rest)
      = .ok (value + n * 2 ^ shift, rest) := by
  have h127 : n &&& 127 = n := by rw [and_127_eq_mod]; omega
  have h128 : n &&& 128 = 0 := and_128_of_lt hn
  simp [read_vlq_u32_go, h127, h128, lor_shiftLeft_eq_add shift value n hv]

/-- The VLQ loop decodes an encoded value placed after any accumulator
state, provided the value fits in the remaining groups. -/
theorem vlq_go_encode : ∀ (f n : Nat), n < 128 ^ (f + 1) →
    ∀ (shift value : Nat) (rest : List Nat), value < 2 ^ shift →
    read_vlq_u32_go (f + 1) shift value (vlq_encode n ++ rest)
      = .ok (value + n * 2 ^ shift, rest) := by
  intro f
  induction f with
  | zero =>
    intro n hn shift value rest hv
    norm_num at hn
    rw [vlq_encode]
    simp [hn]
    exact vlq_go_single 0 shift value n rest hn hv
  | succ f ih =>
    intro n hn shift value rest hv
    by_cases hlt : n < 128
    · rw [vlq_encode]
      simp [hlt]
      exact vlq_go_single (f + 1) shift value n rest hlt hv
    · rw [vlq_encode]
      simp [hlt]
      have hr : n % 128 < 128 := Nat.mod_lt n (by omega)
      have hb127 : (128 + n % 128) &&& 127 = n % 128 := by
        rw [and_127_eq_mod]
        omega
      have hb128 : (128 + n % 128) &&& 128 = 128 := and_128_of_cont hr
      rw [read_vlq_u32_go]
      simp only [hb127, hb128]
      norm_num
      rw [lor_shiftLeft_eq_add shift value (n % 128) hv]
      have hq : n / 128 < 128 ^ (f + 1) := by
        rw [Nat.div_lt_iff_lt_mul (by omega : 0 < 128)]
        calc n < 128 ^ (f + 1 + 1) := hn
        _ = 128 ^ (f + 1) * 128 := by ring
      have hv' : value + n % 128 * 2 ^ shift < 2 ^ (shift + 7) := by
        have : 2 ^ (shift + 7) = 2 ^ shift * 128 := by
          rw [pow_add]; norm_num
        rw [this]
        have := Nat.mod_lt n (show 0 < 128 by omega)
        nlinarith [@Nat.one_le_two_pow shift]
      rw [ih (n / 128) hq (shift + 7) (value + n % 128 * 2 ^ shift) rest hv']
      have hsplit : n % 128 * 2 ^ shift + n / 128 * 2 ^ (shift + 7) = n * 2 ^ shift := by
        conv_rhs => rw [← Nat.mod_add_div n 128]
        rw [pow_add]
        ring
      congr 1
      simp only [Prod.mk.injEq]
      exact ⟨by omega, trivial⟩

/-! ### Claim C5 -/

/-- C5: every value representable in 28 bits survives the VLQ
encode/decode round trip through `read_vlq_u32` (with any trailing bytes
left unconsumed), and any input whose first four bytes all carry the
continuation bit fails with the `VlqTooLarge` error. -/
theorem c5_vlq_roundtrip_and_too_large :
    (∀ (n : Nat) (rest : List Nat), n < 2 ^ 28 →
      read_vlq_u32 (vlq_encode n ++ rest) = .ok (n, rest))
    ∧ (∀ (b₀ b₁ b₂ b₃ : Nat) (rest : List Nat),
        b₀ &&& 128 ≠ 0 → b₁ &&& 128 ≠ 0 → b₂ &&& 128 ≠ 0 → b₃ &&& 128 ≠ 0 →
        read_vlq_u32 (b₀ :: b₁ :: b₂ :: b₃ :: rest) = .error .vlqTooLarge) := by
  constructor
  · intro n rest hn
    have hn' : n < 128 ^ (3 + 1) := by norm_num at hn ⊢; omega
    have h := vlq_go_encode 3 n hn' 0 0 rest (by norm_num)
    simpa [read_vlq_u32] using h
  · intro b₀ b₁ b₂ b₃ rest h0 h1 h2 h3
    simp [read_vlq_u32, read_vlq_u32_go, h0, h1, h2, h3]

/-- C5 witness: the round trip at `300` and the too-large failure on four
continuation bytes, concretely. -/
theorem c5_witness :
    (300 : Nat) < 2 ^ 28 ∧ read_vlq_u32 (vlq_encode 300 ++ [9]) = .ok (300, [9])
    ∧ read_vlq_u32 [129, 130, 131, 132, 5] = .error .vlqTooLarge := by
  refine ⟨by norm_num, c5_vlq_roundtrip_and_too_large.1 300 [9] (by norm_num),
    c5_vlq_roundtrip_and_too_large.2 129 130 131 132 [5] (by decide) (by decide)
      (by decide) (by decide)⟩

/-- C8: `Message::decode` fails with an `UnknownTag` error carrying exactly the
offending tag for every tag outside the set 0, 1, 2, 3, 4, 7, 8, and for
each tag in the set decodes the body as the message kind the tag table
assigns. -/
theorem c8_decode_tag_table (d : BodyDecoders) (buf : List Nat) :
    (∀ tag : Tag, tag ∉ ([0, 1, 2, 3, 4, 7, 8] : List Tag) →
      Message.decode d buf tag = .error (.unknownTag tag))
    ∧ Message.decode d buf 0 = ((d.heartbeatPing buf).map .heartbeatPing).mapError .prostDecode
    ∧ Message.decode d buf 1 = ((d.heartbeatAck buf).map .heartbeatAck).mapError .prostDecode
    ∧ Message.decode d buf 2 = ((d.loginRequest buf).map .loginRequest).mapError .prostDecode
    ∧ Message.decode d buf 3 = ((d.loginResponse buf).map .loginResponse).mapError .prostDecode
    ∧ Message.decode d buf 4 = ((d.close buf).map .close).mapError .prostDecode
    ∧ Message.decode d buf 7 = ((d.iqStanza buf).map .iqStanza).mapError .prostDecode
    ∧ Message.decode d buf 8 = ((d.dataMessageStanza buf).map .dataMessageStanza).mapError .prostDecode := by
  refine ⟨?_, rfl, rfl, rfl, rfl, rfl, rfl, rfl⟩
  intro tag h
  simp only [List.mem_cons, List.not_mem_nil, or_false] at h
  push_neg at h
  obtain ⟨h0, h1, h2, h3, h4, h7, h8⟩ := h
  unfold Message.decode
  split
  all_goals first | rfl | exact absurd rfl h0 | exact absurd rfl h1 |
    exact absurd rfl h2 | exact absurd rfl h3 | exact absurd rfl h4 |
    exact absurd rfl h7 | exact absurd rfl h8

/-- The `app_data` scan never replaces an entry it has already found. -/
theorem appDataGo_some (key : String) (a : AppData) : ∀ l, appDataGo key (some a) l = some a := by
  intro l
  induction l with
  | nil => rfl
  | cons d rest ih => by_cases h : d.key = key <;> simp [appDataGo, h, ih]

/-- The `app_data` scan started with no result returns the first entry
carrying the key. -/
theorem appDataGo_none_eq_find (key : String) : ∀ l : List AppData,
    appDataGo key none l = l.find? (fun d => d.key == key) := by
  intro l
  induction l with
  | nil => rfl
  | cons d rest ih =>
    by_cases h : d.key = key
    · have hb : (d.key == key) = true := by simp [h]
      simp [appDataGo, h, hb, List.find?, appDataGo_some]
    · have hb : (d.key == key) = false := by simp [h]
      simp [appDataGo, h, hb, ih, List.find?]

/-- Characterization of `DataMessageStanza::app_data` as a first-match
lookup. -/
theorem appData_eq_find (msg : DataMessageStanza) (key : String) :
    msg.appData key = match msg.app_data.find? (fun d => d.key == key) with
      | some e => .ok e
      | none => .error ⟨key⟩ := by
  unfold DataMessageStanza.appData
  rw [appDataGo_none_eq_find]

/-- C9: `app_data` returns the first entry with the looked-up key whenever
one exists (duplicate entries never change the result and never produce
an error), fails with a `MissingDataError` carrying exactly the key
otherwise; consequently a stanza lacking the salt header fails decryption
with a missing-data error naming the `encryption` key. -/
theorem c9_app_data_first_wins :
    (∀ (msg : DataMessageStanza) (key : String) (e : AppData),
      msg.app_data.find? (fun d => d.key == key) = some e →
      msg.appData key = .ok e)
    ∧ (∀ (msg : DataMessageStanza) (key : String),
      msg.app_data.find? (fun d => d.key == key) = none →
      msg.appData key = .error ⟨key⟩)
    ∧ (∀ (api : CryptoApi) (c : Client) (msg : DataMessageStanza) (e₁ : AppData) (ck : String),
        msg.app_data.find? (fun d => d.key == "crypo-key") = some e₁ →
        byteSlice e₁.value 3 = some ck →
        msg.app_data.find? (fun d => d.key == "encryption") = none →
        Client.decrypt c api msg = .error (.missingData ⟨"encryption"⟩)) := by
  refine ⟨?_, ?_, ?_⟩
  · intro msg key e h
    rw [appData_eq_find, h]
  · intro msg key h
    rw [appData_eq_find, h]
  · intro api c msg e₁ ck h1 h2 h3
    have hA : msg.appData "crypo-key" = .ok e₁ := by rw [appData_eq_find, h1]
    have hB : msg.appData "encryption" = .error ⟨"encryption"⟩ := by
      rw [appData_eq_find, h3]
    simp [Client.decrypt, hA, hB, h2]

/-- C8 witness: tag 99 is outside the table and fails with an unknown-tag
error carrying 99. -/
theorem c8_witness :
    (99 : Tag) ∉ ([0, 1, 2, 3, 4, 7, 8] : List Tag)
    ∧ Message.decode decodersStub [] 99 = .error (.unknownTag 99) :=
  ⟨by decide, (c8_decode_tag_table decodersStub []).1 99 (by decide)⟩

/-- C9 witness: duplicate entries for `k` resolve to the first one, and a
stanza without the salt header fails decryption naming `encryption`. -/
theorem c9_witness :
    dupStanza.appData "k" = .ok ⟨"k", "first"⟩
    ∧ noSaltStanza.appData "encryption" = .error ⟨"encryption"⟩
    ∧ Client.decrypt clientStub apiOkStub noSaltStanza
        = .error (.missingData ⟨"encryption"⟩) := by
  have h1 : dupStanza.app_data.find? (fun d => d.key == "k") = some ⟨"k", "first"⟩ := rfl
  have h3 : noSaltStanza.app_data.find? (fun d => d.key == "encryption") = none := rfl
  have h5 : noSaltStanza.app_data.find? (fun d => d.key == "crypo-key")
      = some ⟨"crypo-key", "dh=AAAA"⟩ := rfl
  have h6 : byteSlice "dh=AAAA" 3 = some "AAAA" := rfl
  exact ⟨c9_app_data_first_wins.1 dupStanza "k" ⟨"k", "first"⟩ h1,
    c9_app_data_first_wins.2.1 noSaltStanza "encryption" h3,
    c9_app_data_first_wins.2.2 apiOkStub clientStub noSaltStanza ⟨"crypo-key", "dh=AAAA"⟩
      "AAAA" h5 h6 h3⟩

/-- Unfolding a mapped `List.range` at its head. -/
theorem range_map_shift (f : Nat → Nat) (k : Nat) :
    (List.range (k + 1)).map f = f 0 :: (List.range k).map (fun i => f (i + 1)) := by
  rw [List.range_succ_eq_map]
  simp [List.map_map, Function.comp]

/-- One doubling step of the capped backoff timeout. -/
theorem connect_min_double (cap j : Nat) (h5 : 5 ≤ cap) :
    min cap (min cap (5 * 2 ^ j) * 2) = min cap (5 * 2 ^ (j + 1)) := by
  rcases le_total (5 * 2 ^ j) cap with h | h
  · rw [min_eq_right h, pow_succ]
    ring_nf
  · rw [min_eq_left h]
    have h2 : cap ≤ 5 * 2 ^ (j + 1) := by
      rw [pow_succ]
      calc cap ≤ 5 * 2 ^ j := h
      _ ≤ 5 * (2 ^ j * 2) := by omega
    rw [min_eq_left (by omega : cap ≤ cap * 2), min_eq_left h2]

/-- The retry loop of `connect` sleeps the capped doubling schedule: after
`k` further failures the trace records the `min cap (5 * 2 ^ i)` schedule
and the success index. -/
theorem connectLoop_replicate (cap : Nat) (h5 : 5 ≤ cap) :
    ∀ (k j a : Nat),
    connectLoop cap (min cap (5 * 2 ^ j)) a (List.replicate k false ++ [true])
      = ⟨(List.range (k + 1)).map (fun i => min cap (5 * 2 ^ (j + i))), some (a + k)⟩ := by
  intro k
  induction k with
  | zero =>
    intro j a
    have h1 : List.range 1 = [0] := rfl
    simp [connectLoop, h1]
  | succ k ih =>
    intro j a
    simp only [List.replicate_succ, List.cons_append]
    rw [connectLoop]
    simp only [if_neg (by simp : ¬(false = true))]
    rw [connect_min_double cap j h5, ih (j + 1) (a + 1)]
    simp only [ConnectTrace.mk.injEq]
    refine ⟨?_, by congr 1; omega⟩
    rw [range_map_shift (fun i => min cap (5 * 2 ^ (j + i))) (k + 1)]
    congr 1
    apply List.map_congr_left
    intro i hi
    have he : j + 1 + i = j + (i + 1) := by omega
    rw [he]

/-- The retry loop returns exactly when some supplied attempt succeeds. -/
theorem connectLoop_isSome (cap : Nat) : ∀ (outcomes : List Bool) (t a : Nat),
    ((connectLoop cap t a outcomes).connected.isSome = true) ↔ true ∈ outcomes := by
  intro outcomes
  induction outcomes with
  | nil => intro t a; simp [connectLoop]
  | cons b rest ih =>
    intro t a
    cases b
    · simp [connectLoop, ih]
    · simp [connectLoop]

/-- C4: with the default 80 second ceiling, the sleep before the k-th retry
(k counted from 0) is `min 80 (5 * 2 ^ k)` seconds and `connect` returns
at the first successful attempt (first conjunct); `connect` returns
exactly when some `try_connect` attempt succeeds — its result type has no
error case at all (second conjunct); and `Client::new` installs the
80 second default ceiling (third conjunct). -/
theorem c4_connect_backoff :
    (∀ (c : Client) (n : Nat), c.connect_retry_timeout_max = 80 →
      Client.connect c (List.replicate n false ++ [true])
        = ⟨(List.range n).map (fun k => min 80 (5 * 2 ^ k)), some n⟩)
    ∧ (∀ (c : Client) (outcomes : List Bool),
        ((Client.connect c outcomes).connected.isSome = true) ↔ true ∈ outcomes)
    ∧ (∀ (api : CryptoApi) (creds : Credentials) (cl : Client),
        Client.new api creds = .ok cl → cl.connect_retry_timeout_max = 80) := by
  refine ⟨?_, ?_, ?_⟩
  · intro c n hcap
    cases n with
    | zero => simp [Client.connect]
    | succ n =>
      simp only [List.replicate_succ, List.cons_append]
      rw [Client.connect]
      simp only [if_neg (by simp : ¬(false = true)), hcap]
      have h0 : (5 : Nat) = min 80 (5 * 2 ^ 0) := by norm_num
      rw [h0, connectLoop_replicate 80 (by norm_num) n 0 1]
      simp only [ConnectTrace.mk.injEq]
      constructor
      · rw [List.range_succ_eq_map]
        simp [List.map_map, Function.comp]
      · congr 1
        omega
  · intro c outcomes
    cases outcomes with
    | nil => simp [Client.connect]
    | cons b rest =>
      cases b
      · simp [Client.connect, connectLoop_isSome]
      · simp [Client.connect]
  · intro api creds cl h
    unfold Client.new at h
    cases hk : creds.keys.base64_decode api with
    | error e => rw [hk] at h; exact absurd h (by simp)
    | ok keys =>
      rw [hk] at h
      simp only [Except.ok.injEq] at h
      rw [← h]

/-- C4 witness: three failures yield sleeps 5, 10, 20 and success on attempt
3, and a freshly constructed client carries the 80 second ceiling. -/
theorem c4_witness :
    Client.connect clientStub (List.replicate 3 false ++ [true])
      = ⟨(List.range 3).map (fun k => min 80 (5 * 2 ^ k)), some 3⟩
    ∧ (Client.new apiOkStub credsStub).map (fun cl => cl.connect_retry_timeout_max)
        = .ok 80 := by
  constructor
  · exact c4_connect_backoff.1 clientStub 3 rfl
  · have hnew : Client.new apiOkStub credsStub = .ok ⟨[], [], ⟨[], []⟩, gcmStub, 80⟩ := rfl
    have h80 := c4_connect_backoff.2.2 apiOkStub credsStub _ hnew
    rw [hnew]
    simp [Except.map, h80]

/-- The inner loop suspends on an exhausted read list. -/
theorem innerLoop_nil (api : CryptoApi) (c : Client) :
    innerLoop api c [] = ([], c, .suspended) := rfl

/-- A read error produces no item, keeps the client state and exits the
inner loop towards a reconnect. -/
theorem innerLoop_cons_error (api : CryptoApi) (c : Client) (e : ReadError)
    (rest : List (Except ReadError Message)) :
    innerLoop api c (.error e :: rest) = ([], c, .reconnect) := rfl

/-- Dispatching a login response clears the persistent ids and continues. -/
theorem innerLoop_cons_loginResponse (api : CryptoApi) (c : Client)
    (lr : LoginResponse) (rest : List (Except ReadError Message)) :
    innerLoop api c (.ok (.loginResponse lr) :: rest)
      = innerLoop api { c with persistent_ids := [] } rest := rfl

/-- A data-message stanza whose persistent id is already known is dropped
with no output and no state change. -/
theorem innerLoop_cons_dup (api : CryptoApi) (c : Client)
    (msg : DataMessageStanza) (rest : List (Except ReadError Message))
    (hmem : msg.persistent_id ∈ c.persistent_ids) :
    innerLoop api c (.ok (.dataMessageStanza msg) :: rest)
      = innerLoop api c rest := by
  simp [innerLoop, hmem]

/-- A new data-message stanza is recorded, decrypted and emitted. -/
theorem innerLoop_cons_new_ok (api : CryptoApi) (c : Client)
    (msg : DataMessageStanza) (rest : List (Except ReadError Message))
    (pt : List Nat)
    (hmem : msg.persistent_id ∉ c.persistent_ids)
    (hdec : Client.decrypt
      { c with persistent_ids := c.persistent_ids ++ [msg.persistent_id] }
      api msg = .ok pt) :
    innerLoop api c (.ok (.dataMessageStanza msg) :: rest)
      = (.ok pt ::
          (innerLoop api
            { c with persistent_ids := c.persistent_ids ++ [msg.persistent_id] }
            rest).1,
         (innerLoop api
            { c with persistent_ids := c.persistent_ids ++ [msg.persistent_id] }
            rest).2) := by
  simp [innerLoop, hmem, hdec]

/-- A decrypt error on a new stanza yields the error as the final item and
stops the stream. -/
theorem innerLoop_cons_new_err (api : CryptoApi) (c : Client)
    (msg : DataMessageStanza) (rest : List (Except ReadError Message))
    (e : DecryptError)
    (hmem : msg.persistent_id ∉ c.persistent_ids)
    (hdec : Client.decrypt
      { c with persistent_ids := c.persistent_ids ++ [msg.persistent_id] }
      api msg = .error e) :
    innerLoop api c (.ok (.dataMessageStanza msg) :: rest)
      = ([.error (.decrypt e)],
         { c with persistent_ids := c.persistent_ids ++ [msg.persistent_id] },
         .stopped) := by
  simp [innerLoop, hmem, hdec]

/-- A decrypt panic on a new stanza aborts the run. -/
theorem innerLoop_cons_new_panic (api : CryptoApi) (c : Client)
    (msg : DataMessageStanza) (rest : List (Except ReadError Message))
    (hmem : msg.persistent_id ∉ c.persistent_ids)
    (hdec : Client.decrypt
      { c with persistent_ids := c.persistent_ids ++ [msg.persistent_id] }
      api msg = .panicked) :
    innerLoop api c (.ok (.dataMessageStanza msg) :: rest)
      = ([],
         { c with persistent_ids := c.persistent_ids ++ [msg.persistent_id] },
         .panicked) := by
  simp [innerLoop, hmem, hdec]

/-- A heartbeat ping is dispatched with no state change and no output. -/
theorem innerLoop_cons_heartbeatPing (api : CryptoApi) (c : Client)
    (m : HeartbeatPing) (rest : List (Except ReadError Message)) :
    innerLoop api c (.ok (.heartbeatPing m) :: rest) = innerLoop api c rest := rfl

/-- A heartbeat ack is dispatched with no state change and no output. -/
theorem innerLoop_cons_heartbeatAck (api : CryptoApi) (c : Client)
    (m : HeartbeatAck) (rest : List (Except ReadError Message)) :
    innerLoop api c (.ok (.heartbeatAck m) :: rest) = innerLoop api c rest := rfl

/-- An (unexpected) login request frame is dispatched with no state change
and no output. -/
theorem innerLoop_cons_loginRequest (api : CryptoApi) (c : Client)
    (m : LoginRequest) (rest : List (Except ReadError Message)) :
    innerLoop api c (.ok (.loginRequest m) :: rest) = innerLoop api c rest := rfl

/-- A close frame is dispatched with no state change and no output. -/
theorem innerLoop_cons_close (api : CryptoApi) (c : Client)
    (m : Close) (rest : List (Except ReadError Message)) :
    innerLoop api c (.ok (.close m) :: rest) = innerLoop api c rest := rfl

/-- An iq stanza is dispatched with no state change and no output. -/
theorem innerLoop_cons_iqStanza (api : CryptoApi) (c : Client)
    (m : IqStanza) (rest : List (Except ReadError Message)) :
    innerLoop api c (.ok (.iqStanza m) :: rest) = innerLoop api c rest := rfl


/-- Inner-loop runs compose over list append when the first part suspends. -/
theorem innerLoop_append (api : CryptoApi) :
    ∀ (xs : List (Except ReadError Message)) (c : Client)
      (items : List StreamItem) (c₁ : Client),
    innerLoop api c xs = (items, c₁, .suspended) →
    ∀ ys, innerLoop api c (xs ++ ys)
      = (items ++ (innerLoop api c₁ ys).1, (innerLoop api c₁ ys).2) := by
  intro xs
  induction xs with
  | nil =>
    intro c items c₁ h ys
    rw [innerLoop_nil] at h
    simp only [Prod.mk.injEq] at h
    obtain ⟨h1, h2, -⟩ := h
    subst h1
    subst h2
    simp
  | cons x rest ih =>
    intro c items c₁ h ys
    match x with
    | .error e =>
      rw [innerLoop_cons_error] at h
      simp only [Prod.mk.injEq] at h
      exact absurd h.2.2 (by simp)
    | .ok (.heartbeatPing m) =>
      rw [List.cons_append]
      rw [innerLoop_cons_heartbeatPing] at h ⊢
      exact ih c items c₁ h ys
    | .ok (.heartbeatAck m) =>
      rw [List.cons_append]
      rw [innerLoop_cons_heartbeatAck] at h ⊢
      exact ih c items c₁ h ys
    | .ok (.loginRequest m) =>
      rw [List.cons_append]
      rw [innerLoop_cons_loginRequest] at h ⊢
      exact ih c items c₁ h ys
    | .ok (.close m) =>
      rw [List.cons_append]
      rw [innerLoop_cons_close] at h ⊢
      exact ih c items c₁ h ys
    | .ok (.iqStanza m) =>
      rw [List.cons_append]
      rw [innerLoop_cons_iqStanza] at h ⊢
      exact ih c items c₁ h ys
    | .ok (.loginResponse lr) =>
      rw [List.cons_append]
      rw [innerLoop_cons_loginResponse] at h ⊢
      exact ih _ items c₁ h ys
    | .ok (.dataMessageStanza msg) =>
      by_cases hmem : msg.persistent_id ∈ c.persistent_ids
      · rw [List.cons_append]
        rw [innerLoop_cons_dup api c msg _ hmem] at h ⊢
        exact ih c items c₁ h ys
      · rcases hdec : Client.decrypt
            { c with persistent_ids := c.persistent_ids ++ [msg.persistent_id] }
            api msg with _ | e | pt
        · rw [innerLoop_cons_new_panic api c msg _ hmem hdec] at h
          simp only [Prod.mk.injEq] at h
          exact absurd h.2.2 (by simp)
        · rw [innerLoop_cons_new_err api c msg _ e hmem hdec] at h
          simp only [Prod.mk.injEq] at h
          exact absurd h.2.2 (by simp)
        · rw [innerLoop_cons_new_ok api c msg _ pt hmem hdec] at h
          rcases hstep : innerLoop api
              { c with persistent_ids := c.persistent_ids ++ [msg.persistent_id] }
              rest with ⟨items₀, c₀, ex₀⟩
          rw [hstep] at h
          simp only [Prod.mk.injEq] at h
          obtain ⟨hitems, hc, hex⟩ := h
          subst hc
          subst hex
          rw [List.cons_append, innerLoop_cons_new_ok api c msg _ pt hmem hdec,
            ih _ items₀ c₀ hstep ys, ← hitems]
          simp

/-- Absent a login response, dispatch only ever appends persistent ids: the
final collection extends the initial one. -/
theorem innerLoop_ids_extend (api : CryptoApi) :
    ∀ (xs : List (Except ReadError Message)) (c : Client)
      (items : List StreamItem) (c₁ : Client) (ex : InnerExit),
    (∀ lr : LoginResponse, Except.ok (Message.loginResponse lr) ∉ xs) →
    innerLoop api c xs = (items, c₁, ex) →
    ∃ tail, c₁.persistent_ids = c.persistent_ids ++ tail := by
  intro xs
  induction xs with
  | nil =>
    intro c items c₁ ex hno h
    rw [innerLoop_nil] at h
    simp only [Prod.mk.injEq] at h
    obtain ⟨-, h2, -⟩ := h
    exact ⟨[], by rw [← h2]; simp⟩
  | cons x rest ih =>
    intro c items c₁ ex hno h
    have hno' : ∀ lr : LoginResponse, Except.ok (Message.loginResponse lr) ∉ rest := by
      intro lr hmem
      exact hno lr (List.mem_cons_of_mem _ hmem)
    match x with
    | .error e =>
      rw [innerLoop_cons_error] at h
      simp only [Prod.mk.injEq] at h
      obtain ⟨-, h2, -⟩ := h
      exact ⟨[], by rw [← h2]; simp⟩
    | .ok (.heartbeatPing m) =>
      rw [innerLoop_cons_heartbeatPing] at h
      exact ih c items c₁ ex hno' h
    | .ok (.heartbeatAck m) =>
      rw [innerLoop_cons_heartbeatAck] at h
      exact ih c items c₁ ex hno' h
    | .ok (.loginRequest m) =>
      rw [innerLoop_cons_loginRequest] at h
      exact ih c items c₁ ex hno' h
    | .ok (.close m) =>
      rw [innerLoop_cons_close] at h
      exact ih c items c₁ ex hno' h
    | .ok (.iqStanza m) =>
      rw [innerLoop_cons_iqStanza] at h
      exact ih c items c₁ ex hno' h
    | .ok (.loginResponse lr) =>
      exact absurd (List.mem_cons_self _ _) (hno lr)
    | .ok (.dataMessageStanza msg) =>
      by_cases hmem : msg.persistent_id ∈ c.persistent_ids
      · rw [innerLoop_cons_dup api c msg _ hmem] at h
        exact ih c items c₁ ex hno' h
      · rcases hdec : Client.decrypt
            { c with persistent_ids := c.persistent_ids ++ [msg.persistent_id] }
            api msg with _ | e | pt
        · rw [innerLoop_cons_new_panic api c msg _ hmem hdec] at h
          simp only [Prod.mk.injEq] at h
          obtain ⟨-, h2, -⟩ := h
          exact ⟨[msg.persistent_id], by rw [← h2]⟩
        · rw [innerLoop_cons_new_err api c msg _ e hmem hdec] at h
          simp only [Prod.mk.injEq] at h
          obtain ⟨-, h2, -⟩ := h
          exact ⟨[msg.persistent_id], by rw [← h2]⟩
        · rw [innerLoop_cons_new_ok api c msg _ pt hmem hdec] at h
          rcases hstep : innerLoop api
              { c with persistent_ids := c.persistent_ids ++ [msg.persistent_id] }
              rest with ⟨items₀, c₀, ex₀⟩
          rw [hstep] at h
          simp only [Prod.mk.injEq] at h
          obtain ⟨-, hc, -⟩ := h
          obtain ⟨tail, htail⟩ := ih _ items₀ c₀ ex₀ hno' hstep
          refine ⟨msg.persistent_id :: tail, ?_⟩
          rw [← hc, htail]
          simp

/-- C1: once `decrypt` on a dispatched `DataMessageStanza` returns an error,
the yielded `Err` item is the final event of the producer: the remaining
reads of the connection are never consumed — the result is the same for
every continuation `rest` (first conjunct) — and the outer loop never
reconnects: the whole run ends in the stopped state regardless of any
remaining sessions (second conjunct). -/
theorem c1_decrypt_error_fatal (api : CryptoApi) :
    (∀ (c₀ : Client) (pre : List (Except ReadError Message))
       (items : List StreamItem) (c : Client) (d : DataMessageStanza)
       (e : DecryptError) (rest : List (Except ReadError Message)),
      innerLoop api c₀ pre = (items, c, .suspended) →
      d.persistent_id ∉ c.persistent_ids →
      Client.decrypt
        { c with persistent_ids := c.persistent_ids ++ [d.persistent_id] }
        api d = .error e →
      innerLoop api c₀ (pre ++ .ok (.dataMessageStanza d) :: rest)
        = (items ++ [.error (.decrypt e)],
           { c with persistent_ids := c.persistent_ids ++ [d.persistent_id] },
           .stopped))
    ∧ (∀ (c : Client) (session : List (Except ReadError Message))
         (sessions : List (List (Except ReadError Message)))
         (items : List StreamItem) (req : LoginRequest) (c₁ c₂ : Client),
        c.login_request = .ok (req, c₁) →
        innerLoop api c₁ session = (items, c₂, .stopped) →
        notificationsRun api c (session :: sessions) = (items, c₂, .stopped)) := by
  constructor
  · intro c₀ pre items c d e rest h hmem hdec
    rw [innerLoop_append api pre c₀ items c h (.ok (.dataMessageStanza d) :: rest)]
    rw [innerLoop_cons_new_err api c d rest e hmem hdec]
  · intro c session sessions items req c₁ c₂ hl hstep
    simp [notificationsRun, hl, hstep]

/-- C1 witness: a concrete failing decrypt yields the error item and stops
both the inner loop and the whole run. -/
theorem c1_witness :
    innerLoop apiDecryptFailStub clientStub
        ([] ++ .ok (.dataMessageStanza stanzaX) :: [.ok (.loginResponse ⟨⟩)])
      = ([.error (.decrypt (.ece ⟨"authentication failed"⟩))],
         { clientStub with persistent_ids := ["X"] }, .stopped)
    ∧ notificationsRun apiDecryptFailStub clientStub
        ([.ok (.dataMessageStanza stanzaX)] :: [[.ok (.loginResponse ⟨⟩)]])
      = ([.error (.decrypt (.ece ⟨"authentication failed"⟩))],
         { clientStub with persistent_ids := ["X"] }, .stopped) := by
  constructor
  · exact (c1_decrypt_error_fatal apiDecryptFailStub).1 clientStub [] [] clientStub
      stanzaX (.ece ⟨"authentication failed"⟩) [.ok (.loginResponse ⟨⟩)]
      rfl (by decide) (by decide)
  · exact (c1_decrypt_error_fatal apiDecryptFailStub).2 clientStub
      [.ok (.dataMessageStanza stanzaX)] [[.ok (.loginResponse ⟨⟩)]]
      [.error (.decrypt (.ece ⟨"authentication failed"⟩))] loginReqStub clientStub
      { clientStub with persistent_ids := ["X"] }
      (by decide) (by decide)

/-- C7: a frame read error produces no stream item, leaves the persistent-id
collection untouched and abandons the inner loop (first conjunct); the
outer loop then reconnects and keeps producing from the retained state
(second conjunct); and the next login request presents exactly the
retained ids to the relay in its `received_persistent_id` field (third
conjunct). -/
theorem c7_read_error_reconnects (api : CryptoApi) :
    (∀ (c₀ : Client) (pre : List (Except ReadError Message))
       (items : List StreamItem) (c : Client) (e : ReadError)
       (rest : List (Except ReadError Message)),
      innerLoop api c₀ pre = (items, c, .suspended) →
      innerLoop api c₀ (pre ++ .error e :: rest) = (items, c, .reconnect))
    ∧ (∀ (c : Client) (session : List (Except ReadError Message))
         (sessions : List (List (Except ReadError Message)))
         (items : List StreamItem) (req : LoginRequest) (c₁ c₂ : Client),
        c.login_request = .ok (req, c₁) →
        innerLoop api c₁ session = (items, c₂, .reconnect) →
        notificationsRun api c (session :: sessions)
          = (items ++ (notificationsRun api c₂ sessions).1,
             (notificationsRun api c₂ sessions).2))
    ∧ (∀ (c : Client) (req : LoginRequest) (c₁ : Client),
        Client.login_request c = .ok (req, c₁) →
        req.received_persistent_id = c.persistent_ids) := by
  refine ⟨?_, ?_, ?_⟩
  · intro c₀ pre items c e rest h
    rw [innerLoop_append api pre c₀ items c h (.error e :: rest)]
    rw [innerLoop_cons_error]
    simp
  · intro c session sessions items req c₁ c₂ hl hstep
    simp [notificationsRun, hl, hstep]
  · intro c req c₁ hl
    unfold Client.login_request at hl
    cases hp : parse_i64 c.gcm_credentials.android_id with
    | none => rw [hp] at hl; exact absurd hl (by simp)
    | some aid =>
      rw [hp] at hl
      simp only [Except.ok.injEq, Prod.mk.injEq] at hl
      obtain ⟨hreq, -⟩ := hl
      rw [← hreq]

/-- C7 witness: a concrete read error reconnects with the ids retained, and
the login request built from a client holding `X` presents `X`. -/
theorem c7_witness :
    innerLoop apiOkStub clientStub ([] ++ .error .tokioIo :: [.ok (.loginResponse ⟨⟩)])
      = ([], clientStub, .reconnect)
    ∧ notificationsRun apiOkStub clientX ([.error .tokioIo] :: [])
      = ([] ++ (notificationsRun apiOkStub clientStub []).1,
         (notificationsRun apiOkStub clientStub []).2)
    ∧ loginReqX.received_persistent_id = clientX.persistent_ids := by
  refine ⟨?_, ?_, ?_⟩
  · exact (c7_read_error_reconnects apiOkStub).1 clientStub [] [] clientStub .tokioIo
      [.ok (.loginResponse ⟨⟩)] rfl
  · exact (c7_read_error_reconnects apiOkStub).2.1 clientX [.error .tokioIo] []
      [] loginReqX clientStub clientStub (by decide) (by decide)
  · exact (c7_read_error_reconnects apiOkStub).2.2 clientX loginReqX clientStub (by decide)

/-- C2 counterexample: building the login request on a client holding the
persistent id `X` empties the collection (`std::mem::take` moves the ids
into the request), so an operation other than a login-response dispatch
does empty it — the claim as stated is false at this input. -/
theorem c2_counterexample :
    clientX.persistent_ids = ["X"]
    ∧ (clientX.login_request).map (fun p => p.2.persistent_ids)
        = .ok ([] : List String) := by
  constructor
  · rfl
  · have h : clientX.login_request = .ok (loginReqX, clientStub) := by decide
    rw [h]
    rfl

/-- C2 amended: the collection is append-only under dispatch absent a login
response (first conjunct) and cleared by a login-response dispatch
(second conjunct); but in addition building the login request during a
connection attempt also empties it, moving exactly its contents into the
request `received_persistent_id` field (third conjunct). -/
theorem c2_amended (api : CryptoApi) :
    (∀ (reads : List (Except ReadError Message)) (c : Client)
       (items : List StreamItem) (c₁ : Client) (ex : InnerExit),
      (∀ lr : LoginResponse, Except.ok (Message.loginResponse lr) ∉ reads) →
      innerLoop api c reads = (items, c₁, ex) →
      ∃ tail, c₁.persistent_ids = c.persistent_ids ++ tail)
    ∧ (∀ (c : Client) (lr : LoginResponse)
         (rest : List (Except ReadError Message)),
        innerLoop api c (.ok (.loginResponse lr) :: rest)
          = innerLoop api { c with persistent_ids := [] } rest)
    ∧ (∀ (c : Client) (req : LoginRequest) (c₁ : Client),
        c.login_request = .ok (req, c₁) →
        c₁.persistent_ids = [] ∧ req.received_persistent_id = c.persistent_ids) := by
  refine ⟨innerLoop_ids_extend api, innerLoop_cons_loginResponse api, ?_⟩
  intro c req c₁ hl
  unfold Client.login_request at hl
  cases hp : parse_i64 c.gcm_credentials.android_id with
  | none => rw [hp] at hl; exact absurd hl (by simp)
  | some aid =>
    rw [hp] at hl
    simp only [Except.ok.injEq, Prod.mk.injEq] at hl
    obtain ⟨hreq, hc⟩ := hl
    constructor
    · rw [← hc]
    · rw [← hreq]

/-- C2 amended witness: concrete append-only run, login-response reset and
login-request take. -/
theorem c2_witness :
    (∃ tail, clientX.persistent_ids = clientStub.persistent_ids ++ tail) ∧
    innerLoop apiOkStub clientX [.ok (.loginResponse ⟨⟩)]
      = innerLoop apiOkStub { clientX with persistent_ids := [] } []
    ∧ clientStub.persistent_ids = ([] : List String)
    ∧ loginReqX.received_persistent_id = clientX.persistent_ids := by
  refine ⟨?_, (c2_amended apiOkStub).2.1 clientX ⟨⟩ [], ?_⟩
  · exact (c2_amended apiOkStub).1 [.ok (.dataMessageStanza stanzaX)] clientStub
      [.ok [7]] clientX .suspended (by intro lr; simp) (by decide)
  · exact (c2_amended apiOkStub).2.2 clientX loginReqX clientStub (by decide)

/-- C3 counterexample: the dispatched sequence stanza `X`, login response,
stanza `X` emits two plaintext items for the single persistent id `X`,
because the login response clears the dedup state in between — refuting
the claim for arbitrary sequences. -/
theorem c3_counterexample :
    stanzaX.persistent_id = stanzaX.persistent_id
    ∧ (innerLoop apiOkStub clientStub
        [.ok (.dataMessageStanza stanzaX), .ok (.loginResponse ⟨⟩),
         .ok (.dataMessageStanza stanzaX)]).1
      = [.ok [7], .ok [7]] := by
  exact ⟨rfl, by rfl⟩

/-- C3 amended: when no login response is dispatched between two stanzas
sharing a persistent id and the run stays alive in between, the later
stanza is dropped silently with no output and no state change: deleting
it from the read sequence leaves the whole run identical, so exactly one
plaintext item is emitted for that id. -/
theorem c3_amended (api : CryptoApi) :
    ∀ (c : Client) (pre mid post : List (Except ReadError Message))
      (items₀ items₁ : List StreamItem) (c₀ c₁ c₂ : Client)
      (d₁ d₂ : DataMessageStanza) (pt : List Nat),
    innerLoop api c pre = (items₀, c₀, .suspended) →
    d₁.persistent_id ∉ c₀.persistent_ids →
    c₁ = { c₀ with persistent_ids := c₀.persistent_ids ++ [d₁.persistent_id] } →
    Client.decrypt c₁ api d₁ = .ok pt →
    innerLoop api c₁ mid = (items₁, c₂, .suspended) →
    (∀ lr : LoginResponse, Except.ok (Message.loginResponse lr) ∉ mid) →
    d₂.persistent_id = d₁.persistent_id →
    innerLoop api c
        (pre ++ .ok (.dataMessageStanza d₁)
          :: (mid ++ .ok (.dataMessageStanza d₂) :: post))
      = innerLoop api c
          (pre ++ .ok (.dataMessageStanza d₁) :: (mid ++ post)) := by
  intro c pre mid post items₀ items₁ c₀ c₁ c₂ d₁ d₂ pt hpre hmem hc₁ hdec hmid hnolr hid
  subst hc₁
  have hmem₂ : d₂.persistent_id ∈ c₂.persistent_ids := by
    obtain ⟨tail, htail⟩ := innerLoop_ids_extend api mid _ items₁ c₂ .suspended hnolr hmid
    rw [htail, hid]
    simp
  rw [innerLoop_append api pre c items₀ c₀ hpre,
      innerLoop_append api pre c items₀ c₀ hpre,
      innerLoop_cons_new_ok api c₀ d₁ _ pt hmem hdec,
      innerLoop_cons_new_ok api c₀ d₁ _ pt hmem hdec,
      innerLoop_append api mid _ items₁ c₂ hmid,
      innerLoop_append api mid _ items₁ c₂ hmid,
      innerLoop_cons_dup api c₂ d₂ post hmem₂]

/-- C3 amended witness: a concrete duplicate after a heartbeat is dropped. -/
theorem c3_witness :
    stanzaX.persistent_id = stanzaX.persistent_id
    ∧ innerLoop apiOkStub clientStub
        ([] ++ .ok (.dataMessageStanza stanzaX)
          :: ([.ok (.heartbeatPing ⟨⟩)] ++ .ok (.dataMessageStanza stanzaX) :: []))
      = innerLoop apiOkStub clientStub
          ([] ++ .ok (.dataMessageStanza stanzaX) :: ([.ok (.heartbeatPing ⟨⟩)] ++ [])) := by
  refine ⟨rfl, c3_amended apiOkStub clientStub [] [.ok (.heartbeatPing ⟨⟩)] []
    [] [] clientStub clientX clientX stanzaX stanzaX [7]
    (by decide) (by decide) (by decide) (by decide) (by decide)
    (by intro lr; simp) rfl⟩

/-- C6: `decrypt` looks up the first `crypo-key` entry and strips exactly its
first 3 bytes, looks up the first `encryption` entry and strips exactly
its first 5 bytes, base64url-decodes both remainders, and passes the byte
length of the raw ciphertext as the record size to the legacy AES-GCM
decryption, wired exactly in this order. -/
theorem c6_decrypt_pipeline :
    ∀ (api : CryptoApi) (c : Client) (msg : DataMessageStanza)
      (e₁ e₂ : AppData) (ck st : String),
    msg.app_data.find? (fun d => d.key == "crypo-key") = some e₁ →
    byteSlice e₁.value 3 = some ck →
    msg.app_data.find? (fun d => d.key == "encryption") = some e₂ →
    byteSlice e₂.value 5 = some st →
    msg.raw_data.length < 2 ^ 32 →
    Client.decrypt c api msg =
      (match api.b64UrlDecode ck with
       | .error e => .error (.base64Decode e)
       | .ok dh =>
         match api.b64UrlDecode st with
         | .error e => .error (.base64Decode e)
         | .ok salt =>
           match api.aesGcmBlockNew dh salt msg.raw_data.length msg.raw_data with
           | .error e => .error (.ece e)
           | .ok blk =>
             match api.decryptAesGcm c.ec_components c.auth_secret blk with
             | .error e => .error (.ece e)
             | .ok pt => .ok pt) := by
  intro api c msg e₁ e₂ ck st h1 h2 h3 h4 hlen
  have hA : msg.appData "crypo-key" = .ok e₁ := by rw [appData_eq_find, h1]
  have hB : msg.appData "encryption" = .ok e₂ := by rw [appData_eq_find, h3]
  have hmod : msg.raw_data.length % 2 ^ 32 = msg.raw_data.length :=
    Nat.mod_eq_of_lt hlen
  simp only [Client.decrypt, hA, hB, h2, h4, hmod]

/-- C6 witness: the pipeline shape at a concrete stanza. -/
theorem c6_witness :
    Client.decrypt clientStub apiOkStub stanzaX =
      (match apiOkStub.b64UrlDecode "AAAA" with
       | .error e => .error (.base64Decode e)
       | .ok dh =>
         match apiOkStub.b64UrlDecode "AAAA" with
         | .error e => .error (.base64Decode e)
         | .ok salt =>
           match apiOkStub.aesGcmBlockNew dh salt stanzaX.raw_data.length
               stanzaX.raw_data with
           | .error e => .error (.ece e)
           | .ok blk =>
             match apiOkStub.decryptAesGcm clientStub.ec_components
                 clientStub.auth_secret blk with
             | .error e => .error (.ece e)
             | .ok pt => .ok pt) :=
  c6_decrypt_pipeline apiOkStub clientStub stanzaX
    ⟨"crypo-key", "dh=AAAA"⟩ ⟨"encryption", "salt=AAAA"⟩ "AAAA" "AAAA"
    rfl rfl rfl rfl (by decide)

/-- C10: `decrypt` panics — it does not return a `DecryptError` — on a
stanza whose `crypo-key` value is shorter than the 3-byte prefix (for
every api and client state), and it never panics when both header values
admit their prefix slice on a character boundary. -/
theorem c10_decrypt_short_header_panics :
    (∀ (api : CryptoApi) (c : Client),
      Client.decrypt c api shortStanza = .panicked)
    ∧ (∀ (api : CryptoApi) (c : Client) (msg : DataMessageStanza),
        (∀ e₁, msg.appData "crypo-key" = .ok e₁ → (byteSlice e₁.value 3).isSome) →
        (∀ e₂, msg.appData "encryption" = .ok e₂ → (byteSlice e₂.value 5).isSome) →
        Client.decrypt c api msg ≠ .panicked) := by
  constructor
  · intro api c
    rfl
  · intro api c msg h1 h2
    cases hA : msg.appData "crypo-key" with
    | error e => simp [Client.decrypt, hA]
    | ok e₁ =>
      obtain ⟨ck, hck⟩ := Option.isSome_iff_exists.mp (h1 e₁ hA)
      cases hB : msg.appData "encryption" with
      | error e => simp [Client.decrypt, hA, hck, hB]
      | ok e₂ =>
        obtain ⟨st, hst⟩ := Option.isSome_iff_exists.mp (h2 e₂ hB)
        cases hD : api.b64UrlDecode ck with
        | error e => simp [Client.decrypt, hA, hck, hB, hst, hD]
        | ok dh =>
          cases hS : api.b64UrlDecode st with
          | error e => simp [Client.decrypt, hA, hck, hB, hst, hD, hS]
          | ok salt =>
            cases hBlk : api.aesGcmBlockNew dh salt
                (msg.raw_data.length % 4294967296) msg.raw_data with
            | error e => simp [Client.decrypt, hA, hck, hB, hst, hD, hS, hBlk]
            | ok blk =>
              cases hG : api.decryptAesGcm c.ec_components c.auth_secret blk with
              | error e =>
                simp [Client.decrypt, hA, hck, hB, hst, hD, hS, hBlk, hG]
              | ok pt =>
                simp [Client.decrypt, hA, hck, hB, hst, hD, hS, hBlk, hG]

/-- C10 witness: the short-header stanza panics while a well-formed stanza
does not. -/
theorem c10_witness :
    Client.decrypt clientStub apiOkStub shortStanza = .panicked
    ∧ Client.decrypt clientStub apiOkStub stanzaX ≠ .panicked := by
  constructor
  · exact c10_decrypt_short_header_panics.1 apiOkStub clientStub
  · refine c10_decrypt_short_header_panics.2 apiOkStub clientStub stanzaX ?_ ?_
    · intro e₁ h
      have h0 : stanzaX.appData "crypo-key" = .ok ⟨"crypo-key", "dh=AAAA"⟩ := rfl
      rw [h0] at h
      simp only [Except.ok.injEq] at h
      subst h
      decide
    · intro e₂ h
      have h0 : stanzaX.appData "encryption" = .ok ⟨"encryption", "salt=AAAA"⟩ := rfl
      rw [h0] at h
      simp only [Except.ok.injEq] at h
      subst h
      decide

end FcmReceiver
